import Mathlib

/-
Verification of the TRAHN grid-trader chart (src/chart.js): a shallow
embedding of the ChartView coordinate/rendering pipeline and of the
CarouselController day-navigation state machine, together with theorems
settling the specification's claims about them.

Modelling conventions:
* JS numbers are modelled by exact rationals (ℚ).  The source performs only
  field arithmetic on them, so every identity proved here is exact; the
  spec's "within floating-point tolerance" is subsumed by exactness.
* JS `a || b` on numbers returns `b` exactly when `a` is falsy (0, NaN or
  undefined).  NaN does not arise in the fragments modelled here; `undefined`
  is modelled by `Option`, giving `jsOr` below.
* The DOM and the canvas 2D context are pure sinks: what matters for the
  claims is which data reaches them, captured by explicit result values
  (`RenderKind`, `TooltipResult`, the controller's `displayed` field).
-/

-- ============================================
-- Data model (normalized records, as produced by updateChart)
-- ============================================

/-- A price point as consumed by the chart: `{ timestamp, price }`. -/
structure PricePoint where
  timestamp : ℚ
  price : ℚ
deriving DecidableEq, Repr

/-- Trade side enum. -/
inductive TradeSide where
  | buy
  | sell
deriving DecidableEq, Repr

/-- A trade as consumed by the chart: `{ timestamp, price, side, usdValue }`.
`usdValue` may be absent on the wire (the tooltip guards on it). -/
structure Trade where
  timestamp : ℚ
  price : ℚ
  side : TradeSide
  usdValue : Option ℚ
deriving DecidableEq, Repr

-- ============================================
-- ChartView state (TrahnChart)
-- ============================================

/-- The fields of `TrahnChart` that the modelled methods read or write.
`width`/`height` come from `setupCanvas` (logical CSS pixels; the
device-pixel-ratio scaling only affects the backing store, not the
coordinate arithmetic, which is done in logical pixels). -/
structure ChartView where
  width : ℚ
  height : ℚ
  padTop : ℚ
  padRight : ℚ
  padBottom : ℚ
  padLeft : ℚ
  priceData : List PricePoint
  trades : List Trade
  baselinePrice : ℚ
  minPrice : ℚ
  maxPrice : ℚ
  minTime : ℚ
  maxTime : ℚ
deriving DecidableEq, Repr

/-- `this.chartWidth = this.width - this.padding.left - this.padding.right`. -/
def chartWidth (c : ChartView) : ℚ := c.width - c.padLeft - c.padRight

/-- `this.chartHeight = this.height - this.padding.top - this.padding.bottom`. -/
def chartHeight (c : ChartView) : ℚ := c.height - c.padTop - c.padBottom

/-- The chart constructor state: padding `{top:20, right:80, bottom:40, left:20}`,
empty data.  The bound fields are undefined in JS until the first `setData`;
they are initialised to 0 here (no modelled claim reads them before
`setData` establishes them). -/
def mkChart (width height : ℚ) : ChartView :=
  { width := width, height := height
    padTop := 20, padRight := 80, padBottom := 40, padLeft := 20
    priceData := [], trades := [], baselinePrice := 0
    minPrice := 0, maxPrice := 0, minTime := 0, maxTime := 0 }

/-- `priceToY` (chart.js line 80). -/
def priceToY (c : ChartView) (price : ℚ) : ℚ :=
  c.padTop + chartHeight c * (1 - (price - c.minPrice) / (c.maxPrice - c.minPrice))

/-- `timeToX` (chart.js line 86). -/
def timeToX (c : ChartView) (timestamp : ℚ) : ℚ :=
  c.padLeft + chartWidth c * ((timestamp - c.minTime) / (c.maxTime - c.minTime))

/-- `xToTime` (chart.js line 92). -/
def xToTime (c : ChartView) (x : ℚ) : ℚ :=
  c.minTime + (x - c.padLeft) / chartWidth c * (c.maxTime - c.minTime)

/-- `yToPrice` (chart.js line 97). -/
def yToPrice (c : ChartView) (y : ℚ) : ℚ :=
  c.minPrice + (1 - (y - c.padTop) / chartHeight c) * (c.maxPrice - c.minPrice)

-- ============================================
-- setData and bounds
-- ============================================

/-- `Math.min(...l)` over a non-empty spread; the empty case never occurs in
the source (guarded by the `priceData.length === 0` early return). -/
def listMin : List ℚ → ℚ
  | [] => 0
  | x :: xs => xs.foldl min x

/-- `Math.max(...l)` over a non-empty spread. -/
def listMax : List ℚ → ℚ
  | [] => 0
  | x :: xs => xs.foldl max x

/-- JS `a || b` on numbers: `a` when non-zero, else `b` (0 is falsy). -/
def jsOrNum (a b : ℚ) : ℚ := if a = 0 then b else a

/-- `Math.min(...prices)` in `setData`: the raw lower price bound. -/
def rawMinPrice (l : List PricePoint) : ℚ := listMin (l.map (fun q => q.price))

/-- `Math.max(...prices)` in `setData`: the raw upper price bound. -/
def rawMaxPrice (l : List PricePoint) : ℚ := listMax (l.map (fun q => q.price))

/-- `Math.min(...times)` in `setData`. -/
def rawMinTime (l : List PricePoint) : ℚ := listMin (l.map (fun q => q.timestamp))

/-- `Math.max(...times)` in `setData`. -/
def rawMaxTime (l : List PricePoint) : ℚ := listMax (l.map (fun q => q.timestamp))

/-- The price padding of `setData` (chart.js line 121):
`(this.maxPrice - this.minPrice) * 0.05 || 10` — 5% of the raw range, or
the fixed fallback 10 when that product is zero. -/
def pricePad (l : List PricePoint) : ℚ :=
  jsOrNum ((rawMaxPrice l - rawMinPrice l) * (5 / 100)) 10

/-- Which terminal rendering path `setData`/`draw` takes: the explicit
"No data for this day" placeholder (`drawEmpty`) or the full layer stack. -/
inductive RenderKind where
  | noData
  | chart
deriving DecidableEq, Repr

/-- `setData` (chart.js line 102).  Stores the series, and on non-empty input
computes raw bounds, applies the 5%-or-10 price padding
(`(maxPrice - minPrice) * 0.05 || 10`), and sets the baseline to the first
price.  On records of shape `{timestamp, price}` the source coalescings
`d.p || d.price` / `d.t || d.timestamp` always select the full-name field
(`d.p`/`d.t` are undefined); the wire-shape coalescing itself is modelled
separately below.  The second component records which rendering path runs. -/
def setData (c : ChartView) (priceData : List PricePoint) (trades : List Trade) :
    ChartView × RenderKind :=
  let c := { c with priceData := priceData, trades := trades }
  match priceData with
  | [] => (c, RenderKind.noData)
  | d :: _ =>
    ({ c with
        minPrice := rawMinPrice priceData - pricePad priceData
        maxPrice := rawMaxPrice priceData + pricePad priceData
        minTime := rawMinTime priceData
        maxTime := rawMaxTime priceData
        baselinePrice := d.price }, RenderKind.chart)

-- ============================================
-- calculateNiceStep
-- ============================================

/-- `calculateNiceStep` (chart.js line 425).  `Math.floor(Math.log10 x)` is
`Int.log 10 x` for positive `x`, and `Math.pow(10, e)` is `(10 : ℚ) ^ e`. -/
def calculateNiceStep (range targetSteps : ℚ) : ℚ :=
  let roughStep := range / targetSteps
  let magnitude : ℚ := (10 : ℚ) ^ (Int.log 10 roughStep)
  let normalized := roughStep / magnitude
  (if normalized ≤ 3 / 2 then (1 : ℚ)
   else if normalized ≤ 3 then 2
   else if normalized ≤ 7 then 5
   else 10) * magnitude

/-- The spec's snapping rule, stated from its words ("snap the normalized
mantissa to the nearest of 1, 2, 5, 10; thresholds ≤1.5→1, ≤3→2, ≤7→5,
else→10"), for comparison with the source's branch chain. -/
def niceSnap (normalized : ℚ) : ℚ :=
  if normalized ≤ 3 / 2 then 1
  else if normalized ≤ 3 then 2
  else if normalized ≤ 7 then 5
  else 10

-- ============================================
-- Current-price tag (drawCurrentPrice)
-- ============================================

/-- The up/down comparison of `drawCurrentPrice` (chart.js line 328):
`isUp = price >= this.baselinePrice` for the last point's price.  When the
series is empty the method returns before drawing; `false` stands for that
early return (no tag is drawn, so no color is chosen). -/
def currentPriceIsUp (c : ChartView) : Bool :=
  match c.priceData.getLast? with
  | none => false
  | some lastPoint => decide (c.baselinePrice ≤ lastPoint.price)

/-- The tag fill color chosen by `drawCurrentPrice`:
`colors.green` when up, `colors.red` otherwise. -/
def currentPriceTagColor (c : ChartView) : String :=
  if currentPriceIsUp c then "#3fb950" else "#f85149"

-- ============================================
-- Tooltip hit-testing (handleMouseMove)
-- ============================================

/-- The time distance `Math.abs(t - timestamp)` used by the nearest-point
scan, where `timestamp` is the inverted pointer X. -/
def tdist (ts : ℚ) (p : PricePoint) : ℚ := |p.timestamp - ts|

/-- One iteration of the nearest-point loop: the running pair
`(nearestPoint, nearestDistance)` starts at `(null, Infinity)` (modelled by
`none`, against which any point wins) and is replaced on strict improvement. -/
def nearestStep (ts : ℚ) (acc : Option (PricePoint × ℚ)) (point : PricePoint) :
    Option (PricePoint × ℚ) :=
  match acc with
  | none => some (point, tdist ts point)
  | some (q, dq) => if tdist ts point < dq then some (point, tdist ts point) else some (q, dq)

/-- The full nearest-point linear scan of `handleMouseMove`. -/
def nearestScan (ts : ℚ) (l : List PricePoint) : Option (PricePoint × ℚ) :=
  l.foldl (nearestStep ts) none

/-- The trade-radius test of `handleMouseMove`:
`Math.sqrt((x-tradeX)**2 + (y-tradeY)**2) < 15`, stated equivalently on
squares (both sides are non-negative, so `sqrt d < 15 ↔ d < 225`). -/
def tradeHit (c : ChartView) (x y : ℚ) (trade : Trade) : Bool :=
  decide ((x - timeToX c trade.timestamp) ^ 2 + (y - priceToY c trade.price) ^ 2 < 225)

/-- What `handleMouseMove` does to the tooltip: hide it (pointer outside the
plot rectangle), leave it untouched (no price data, so `nearestPoint` stays
null and neither `showTooltip` nor `hideTooltip` runs), or show it for a
point and an optional attached trade. -/
inductive TooltipResult where
  | hidden
  | unchanged
  | shown (point : PricePoint) (trade : Option Trade)
deriving DecidableEq, Repr

/-- `handleMouseMove` (chart.js line 343) for a pointer at canvas-relative
`(x, y)`.  The trade scan `for … if (distance < 15) { …; break }` is the
first match in sequence order, i.e. `List.find?`. -/
def handleMouseMove (c : ChartView) (x y : ℚ) : TooltipResult :=
  if x < c.padLeft ∨ x > c.width - c.padRight ∨ y < c.padTop ∨ y > c.height - c.padBottom then
    TooltipResult.hidden
  else
    match nearestScan (xToTime c x) c.priceData with
    | none => TooltipResult.unchanged
    | some (p, _) => TooltipResult.shown p (c.trades.find? (tradeHit c x y))

-- ============================================
-- Wire-shape compatibility layer (updateChart field coalescing)
-- ============================================

/-- JS `a || b` on possibly-undefined numbers: `a` when truthy
(present and non-zero), else `b`. -/
def jsOr (a b : Option ℚ) : Option ℚ :=
  match a with
  | some x => if x = 0 then b else some x
  | none => b

/-- A price point as it arrives on the wire: it may carry abbreviated
(`t`/`p`) or full (`timestamp`/`price`) field names, or any mix. -/
structure WirePricePoint where
  t : Option ℚ
  timestamp : Option ℚ
  p : Option ℚ
  price : Option ℚ
deriving DecidableEq, Repr

/-- A trade as it arrives on the wire. -/
structure WireTrade where
  t : Option ℚ
  timestamp : Option ℚ
  p : Option ℚ
  price : Option ℚ
  side : TradeSide
  usdValue : Option ℚ
deriving DecidableEq, Repr

/-- The record produced by `updateChart`'s price map: fields may still be
undefined when the wire shape defeated the coalescing. -/
structure NormPoint where
  timestamp : Option ℚ
  price : Option ℚ
deriving DecidableEq, Repr

/-- The record produced by `updateChart`'s trade map. -/
structure NormTrade where
  timestamp : Option ℚ
  price : Option ℚ
  side : TradeSide
  usdValue : Option ℚ
deriving DecidableEq, Repr

/-- `updateChart`'s price normalization (chart.js line 560):
`{ timestamp: p.t || p.timestamp, price: p.p || p.price }`. -/
def normalizePricePoint (w : WirePricePoint) : NormPoint :=
  { timestamp := jsOr w.t w.timestamp, price := jsOr w.p w.price }

/-- `updateChart`'s trade normalization (chart.js line 565):
`{ timestamp: t.t || t.timestamp, price: t.price, side: t.side,
usdValue: t.usdValue }` — note the price is read from `price` only,
the abbreviated `p` field is never consulted. -/
def normalizeTrade (w : WireTrade) : NormTrade :=
  { timestamp := jsOr w.t w.timestamp, price := w.price, side := w.side, usdValue := w.usdValue }

/-- `setData`'s price extraction `priceData.map(d => d.p || d.price)` applied
to normalized records, which carry no `p` key (`d.p` is undefined). -/
def wirePrices (l : List NormPoint) : List (Option ℚ) :=
  l.map (fun d => jsOr none d.price)

/-- `this.baselinePrice = prices[0]` on the extracted prices
(undefined when the list is empty). -/
def wireBaseline (l : List NormPoint) : Option ℚ :=
  (wirePrices l).headD none

/-- `drawCurrentPrice`'s `lastPoint.p || lastPoint.price` on normalized
records (undefined when the list is empty). -/
def wireLastPrice (l : List NormPoint) : Option ℚ :=
  match l.getLast? with
  | some d => jsOr none d.price
  | none => none

/-- JS `a >= b` on possibly-undefined numbers: comparisons against
undefined (NaN after coercion) are false. -/
def jsGe : Option ℚ → Option ℚ → Bool
  | some a, some b => decide (b ≤ a)
  | _, _ => false

/-- `isUp` of `drawCurrentPrice` computed along the wire path. -/
def wireIsUp (l : List NormPoint) : Bool := jsGe (wireLastPrice l) (wireBaseline l)

/-- The tag color along the wire path. -/
def wireTagColor (l : List NormPoint) : String :=
  if wireIsUp l then "#3fb950" else "#f85149"

/-- The spec's end-to-end example payload, in its exact wire shape:
`[{t:0,price:100},{t:100,price:110}]`. -/
def specExamplePoints : List WirePricePoint :=
  [{ t := some 0, timestamp := none, p := none, price := some 100 },
   { t := some 100, timestamp := none, p := none, price := some 110 }]

-- ============================================
-- CarouselController
-- ============================================

/-- `CONFIG.pollIntervalMs`. -/
def pollIntervalMs : ℕ := 5000

/-- `CONFIG.retryIntervalMs`. -/
def retryIntervalMs : ℕ := 10000

/-- One day-cache entry: `{ prices, trades }` (absent wire arrays already
defaulted to `[]` at the write sites). -/
structure DayData where
  prices : List PricePoint
  trades : List Trade
deriving DecidableEq, Repr

/-- A live-snapshot JSON payload; every field may be absent. -/
structure SnapshotData where
  availableDays : Option (List String)
  currentDay : Option String
  prices : Option (List PricePoint)
  trades : Option (List Trade)
deriving DecidableEq, Repr

/-- The connection-status indicator (`setConnectionStatus`). -/
inductive ConnStatus where
  | unknown
  | connected
  | waiting
deriving DecidableEq, Repr

/-- The fields of `CarouselController` that the modelled methods read or
write.  `displayed` records the last payload pushed into
`chart.setData` (none before the first push); `polling` records whether
`startPolling`'s interval is installed. -/
structure Controller where
  availableDays : List String
  currentDayIndex : ℤ
  currentDay : Option String
  isLive : Bool
  polling : Bool
  loading : Bool
  dayCache : List (String × DayData)
  displayed : Option (List PricePoint × List Trade)
  connection : ConnStatus
deriving DecidableEq, Repr

/-- The constructor state of `CarouselController`. -/
def initController : Controller :=
  { availableDays := [], currentDayIndex := 0, currentDay := none, isLive := false
    polling := false, loading := false, dayCache := [], displayed := none
    connection := ConnStatus.unknown }

/-- The JS object key under which `handleData` caches: `dayCache[currentDay]`
stringifies an undefined day to the literal key "undefined". -/
def cacheKey : Option String → String
  | some d => d
  | none => "undefined"

/-- JS object property assignment, observed through first-match lookup:
prepending shadows (overwrites) any earlier entry for the same key. -/
def cacheInsert (cache : List (String × DayData)) (k : String) (v : DayData) :
    List (String × DayData) :=
  (k, v) :: cache

/-- The status recomputation of `updateUI` (chart.js line 613):
`this.isLive = this.currentDayIndex === this.availableDays.length - 1`.
The label/button/indicator updates write only to the DOM. -/
def updateUI (s : Controller) : Controller :=
  { s with isLive := decide (s.currentDayIndex = (s.availableDays.length : ℤ) - 1) }

/-- JS `Array.prototype.indexOf` (returns -1 when absent, also when the
sought value is undefined). -/
def jsIndexOf (days : List String) : Option String → ℤ
  | some d => if d ∈ days then (days.indexOf d : ℤ) else -1
  | none => -1

/-- The available-days update of `handleData` (chart.js line 527):
`if (data.availableDays && data.availableDays.length > 0)` installs the new
list and locates `currentDay` in it (falling back to the last index);
`else if (data.currentDay)` installs a singleton list. -/
def handleDataDays (s : Controller) (data : SnapshotData) : Controller :=
  match data.availableDays with
  | some days =>
    if 0 < days.length then
      { s with availableDays := days, currentDay := data.currentDay
               currentDayIndex :=
                 if jsIndexOf days data.currentDay = -1 then (days.length : ℤ) - 1
                 else jsIndexOf days data.currentDay }
    else
      match data.currentDay with
      | some d => { s with availableDays := [d], currentDay := some d, currentDayIndex := 0 }
      | none => s
  | none =>
    match data.currentDay with
    | some d => { s with availableDays := [d], currentDay := some d, currentDayIndex := 0 }
    | none => s

/-- The cache write of `handleData` (chart.js line 542): runs whenever
`data.prices` is present (arrays are always truthy). -/
def handleDataCache (s : Controller) (data : SnapshotData) : Controller :=
  match data.prices with
  | some ps =>
    { s with dayCache :=
        cacheInsert s.dayCache (cacheKey data.currentDay) ⟨ps, data.trades.getD []⟩ }
  | none => s

/-- The live-view chart push of `handleData` (chart.js line 550): when the
controller points at the last index, set `isLive` and push
`(data.prices || [], data.trades || [])` through `updateChart`. -/
def handleDataLive (s : Controller) (data : SnapshotData) : Controller :=
  if s.currentDayIndex = (s.availableDays.length : ℤ) - 1 then
    { s with isLive := true
             displayed := some (data.prices.getD [], data.trades.getD []) }
  else s

/-- `handleData` (chart.js line 524): `showLoading(false)`, the three update
stages, then `updateUI`. -/
def handleData (s : Controller) (data : SnapshotData) : Controller :=
  updateUI
    (handleDataLive
      (handleDataCache (handleDataDays { s with loading := false } data) data) data)

/-- The resolution of one `fetchData` round trip. -/
inductive FetchOutcome where
  | ok (data : SnapshotData)
  | failed
deriving DecidableEq, Repr

/-- `fetchData` (chart.js line 503).  The whole body is inside
`try … catch`, so both resolutions are defined states and nothing
propagates: success runs `handleData` then marks the connection live;
failure marks the connection waiting and schedules exactly one retry after
`CONFIG.retryIntervalMs` (the second component is the scheduled delay). -/
def fetchData (s : Controller) : FetchOutcome → Controller × Option ℕ
  | FetchOutcome.ok data => ({ handleData s data with connection := ConnStatus.connected }, none)
  | FetchOutcome.failed => ({ s with connection := ConnStatus.waiting }, some retryIntervalMs)

/-- The resolution of one `fetchDayData` round trip: an OK response (whose
arrays may still be absent), a non-OK HTTP response, or a thrown
network/parse error. -/
inductive DayFetchOutcome where
  | ok (prices : Option (List PricePoint)) (trades : Option (List Trade))
  | httpError
  | networkError
deriving DecidableEq, Repr

/-- `fetchDayData` (chart.js line 672), also fully inside `try … catch`:
an OK response caches and displays `(data.prices || [], data.trades || [])`;
a non-OK response or a thrown error displays the empty chart.  No branch
schedules anything (second component: no retry, ever). -/
def fetchDayData (s : Controller) (day : String) : DayFetchOutcome → Controller × Option ℕ
  | DayFetchOutcome.ok ps ts =>
    ({ s with dayCache := cacheInsert s.dayCache day ⟨ps.getD [], ts.getD []⟩
              displayed := some (ps.getD [], ts.getD [])
              loading := false }, none)
  | DayFetchOutcome.httpError =>
    ({ s with displayed := some ([], []), loading := false }, none)
  | DayFetchOutcome.networkError =>
    ({ s with displayed := some ([], []), loading := false }, none)

/-- `navigateTo` (chart.js line 654).  Out-of-range indices return before
touching any state.  A valid index is installed, then the cache is
consulted: a hit feeds the chart directly, a miss runs `fetchDayData`;
either way `updateUI` runs last.  The second component counts the network
requests issued (`fetchDayData` always issues exactly one `fetch`). -/
def navigateTo (s : Controller) (index : ℤ) (o : DayFetchOutcome) : Controller × ℕ :=
  if index < 0 ∨ (s.availableDays.length : ℤ) ≤ index then (s, 0)
  else
    let s := { s with currentDayIndex := index }
    let day := s.availableDays.getD index.toNat ""
    match s.dayCache.lookup day with
    | some dd => (updateUI { s with displayed := some (dd.prices, dd.trades) }, 0)
    | none => (updateUI (fetchDayData { s with loading := true } day o).1, 1)

/-- One tick of the `startPolling` interval (chart.js line 695): the
live/historical flag is read at invocation time, and a historical view
skips the fetch entirely. -/
def pollTick (s : Controller) (o : FetchOutcome) : Controller × Option ℕ :=
  if s.isLive then fetchData s o else (s, none)

/-- `start` (chart.js line 497): `showLoading(true)`, one initial
`fetchData`, then the interval is installed regardless of the outcome. -/
def start (s : Controller) (o : FetchOutcome) : Controller × Option ℕ :=
  let r := fetchData { s with loading := true } o
  ({ r.1 with polling := true }, r.2)

/-- The externally invocable controller operations, each tagged with the
resolution of any fetch it performs. -/
inductive COp where
  | handle (data : SnapshotData)
  | fetch (o : FetchOutcome)
  | fetchDay (day : String) (o : DayFetchOutcome)
  | nav (index : ℤ) (o : DayFetchOutcome)
  | tick (o : FetchOutcome)
  | startOp (o : FetchOutcome)

/-- The state reached after one controller operation. -/
def applyOp (s : Controller) : COp → Controller
  | COp.handle data => handleData s data
  | COp.fetch o => (fetchData s o).1
  | COp.fetchDay day o => (fetchDayData s day o).1
  | COp.nav index o => (navigateTo s index o).1
  | COp.tick o => (pollTick s o).1
  | COp.startOp o => (start s o).1

/-- The spec's §3 invariant: `isLive == (currentDayIndex == availableDays.length - 1)`. -/
def liveInv (s : Controller) : Prop :=
  s.isLive = true ↔ s.currentDayIndex = (s.availableDays.length : ℤ) - 1

-- ============================================
-- Sample states for concrete instantiations
-- ============================================

/-- A chart that has received a non-degenerate series. -/
def sampleChart : ChartView :=
  (setData (mkChart 800 400) [⟨0, 100⟩, ⟨600, 200⟩] []).1

/-- A chart state for hit-testing: `timeToX t = 20 + t` and
`priceToY p = 360 - p`, with a point plotted at pixel (120, 190), a second
point at (370, 260) and a trade marker at (370, 260). -/
def hitChart : ChartView :=
  { width := 800, height := 400
    padTop := 20, padRight := 80, padBottom := 40, padLeft := 20
    priceData := [⟨100, 170⟩, ⟨350, 100⟩]
    trades := [⟨350, 100, TradeSide.buy, some 25⟩]
    baselinePrice := 170
    minPrice := 0, maxPrice := 340, minTime := 0, maxTime := 700 }

/-- The demo day list. -/
def demoDays : List String := ["2024-01-01", "2024-01-02"]

/-- A well-formed live snapshot naming the last demo day. -/
def demoSnapshot : SnapshotData :=
  { availableDays := some demoDays, currentDay := some "2024-01-02"
    prices := some [⟨0, 100⟩], trades := some [] }

/-- A controller viewing the live (last) demo day. -/
def liveController : Controller :=
  { initController with availableDays := demoDays, currentDayIndex := 1, isLive := true }

/-- A controller viewing the historical (first) demo day, with that day's
series cached. -/
def histController : Controller :=
  { initController with availableDays := demoDays, currentDayIndex := 0, isLive := false
                        dayCache := [("2024-01-01", ⟨[⟨5, 42⟩], []⟩)] }

-- ============================================
-- Theorems
-- ============================================

/-- C1: for every chart state whose price range, time range and plot
dimensions are non-degenerate, the coordinate maps are mutually inverse:
`yToPrice (priceToY p) = p` and `xToTime (timeToX t) = t`.  Over the exact
rationals the inversion is exact, which subsumes the claim's
floating-point tolerance. -/
theorem coordinate_maps_inverse (c : ChartView) (p t : ℚ)
    (hp : c.maxPrice ≠ c.minPrice) (hh : chartHeight c ≠ 0)
    (ht : c.maxTime ≠ c.minTime) (hw : chartWidth c ≠ 0) :
    yToPrice c (priceToY c p) = p ∧ xToTime c (timeToX c t) = t := by
  have hpr : c.maxPrice - c.minPrice ≠ 0 := sub_ne_zero.mpr hp
  have htr : c.maxTime - c.minTime ≠ 0 := sub_ne_zero.mpr ht
  constructor
  · unfold yToPrice priceToY
    field_simp
    ring
  · unfold xToTime timeToX
    field_simp
    ring

/-- C1 witness: the round trips evaluated on a concrete chart state. -/
theorem coordinate_maps_inverse_witness :
    yToPrice sampleChart (priceToY sampleChart 123) = 123 ∧
    xToTime sampleChart (timeToX sampleChart 300) = 300 :=
  coordinate_maps_inverse sampleChart 123 300 (by with_unfolding_all decide)
    (by with_unfolding_all decide) (by with_unfolding_all decide)
    (by with_unfolding_all decide)

/-- C3: `setData` with an empty price list takes the "no data" placeholder
path (`drawEmpty`) for every trades argument, storing the arguments and
touching no bound; the embedding is total, so nothing can throw. -/
theorem setData_empty_renders_noData (c : ChartView) (trades : List Trade) :
    (setData c [] trades).2 = RenderKind.noData ∧
    (setData c [] trades).1.priceData = [] ∧
    (setData c [] trades).1.trades = trades :=
  ⟨rfl, rfl, rfl⟩

/-- C9: `calculateNiceStep` divides the range by the target count, splits
off the power-of-ten magnitude, snaps the normalized mantissa by the
thresholds ≤1.5→1, ≤3→2, ≤7→5, else→10, and returns the snapped mantissa
times the magnitude; in particular `calculateNiceStep 47 5 = 10` and
`calculateNiceStep 4 5 = 1`. -/
theorem calculateNiceStep_snapping :
    (∀ range targetSteps : ℚ,
        calculateNiceStep range targetSteps =
          niceSnap (range / targetSteps / (10 : ℚ) ^ Int.log 10 (range / targetSteps)) *
            (10 : ℚ) ^ Int.log 10 (range / targetSteps)) ∧
    calculateNiceStep 47 5 = 10 ∧ calculateNiceStep 4 5 = 1 :=
  ⟨fun _ _ => rfl, by with_unfolding_all rfl, by with_unfolding_all rfl⟩

/-- A `min`-fold never exceeds its initial accumulator. -/
theorem foldl_min_le_init (xs : List ℚ) : ∀ x : ℚ, xs.foldl min x ≤ x := by
  induction xs with
  | nil => intro x; simp
  | cons y ys ih =>
    intro x
    rw [List.foldl_cons]
    exact le_trans (ih (min x y)) (min_le_left x y)

/-- A `min`-fold never exceeds any list element. -/
theorem foldl_min_le_mem (xs : List ℚ) : ∀ x y : ℚ, y ∈ xs → xs.foldl min x ≤ y := by
  induction xs with
  | nil => intro x y h; cases h
  | cons z zs ih =>
    intro x y h
    rw [List.foldl_cons]
    rcases List.mem_cons.mp h with h | h
    · subst h
      exact le_trans (foldl_min_le_init zs (min x y)) (min_le_right x y)
    · exact ih (min x z) y h

/-- A `max`-fold is at least its initial accumulator. -/
theorem init_le_foldl_max (xs : List ℚ) : ∀ x : ℚ, x ≤ xs.foldl max x := by
  induction xs with
  | nil => intro x; simp
  | cons y ys ih =>
    intro x
    rw [List.foldl_cons]
    exact le_trans (le_max_left x y) (ih (max x y))

/-- A `max`-fold is at least any list element. -/
theorem mem_le_foldl_max (xs : List ℚ) : ∀ x y : ℚ, y ∈ xs → y ≤ xs.foldl max x := by
  induction xs with
  | nil => intro x y h; cases h
  | cons z zs ih =>
    intro x y h
    rw [List.foldl_cons]
    rcases List.mem_cons.mp h with h | h
    · subst h
      exact le_trans (le_max_right x y) (init_le_foldl_max zs (max x y))
    · exact ih (max x z) y h

/-- A common lower bound passes through a `min`-fold. -/
theorem le_foldl_min (xs : List ℚ) :
    ∀ x c : ℚ, c ≤ x → (∀ y ∈ xs, c ≤ y) → c ≤ xs.foldl min x := by
  induction xs with
  | nil => intro x c hx _; simpa using hx
  | cons z zs ih =>
    intro x c hx hall
    rw [List.foldl_cons]
    exact ih (min x z) c (le_min hx (hall z (List.mem_cons_self z zs)))
      (fun y hy => hall y (List.mem_cons_of_mem z hy))

/-- A common upper bound passes through a `max`-fold. -/
theorem foldl_max_le (xs : List ℚ) :
    ∀ x c : ℚ, x ≤ c → (∀ y ∈ xs, y ≤ c) → xs.foldl max x ≤ c := by
  induction xs with
  | nil => intro x c hx _; simpa using hx
  | cons z zs ih =>
    intro x c hx hall
    rw [List.foldl_cons]
    exact ih (max x z) c (max_le hx (hall z (List.mem_cons_self z zs)))
      (fun y hy => hall y (List.mem_cons_of_mem z hy))

/-- `listMin` bounds every member from below. -/
theorem listMin_le_of_mem {l : List ℚ} {y : ℚ} (h : y ∈ l) : listMin l ≤ y := by
  cases l with
  | nil => cases h
  | cons x xs =>
    show xs.foldl min x ≤ y
    rcases List.mem_cons.mp h with h | h
    · subst h; exact foldl_min_le_init xs y
    · exact foldl_min_le_mem xs x y h

/-- `listMax` bounds every member from above. -/
theorem le_listMax_of_mem {l : List ℚ} {y : ℚ} (h : y ∈ l) : y ≤ listMax l := by
  cases l with
  | nil => cases h
  | cons x xs =>
    show y ≤ xs.foldl max x
    rcases List.mem_cons.mp h with h | h
    · subst h; exact init_le_foldl_max xs y
    · exact mem_le_foldl_max xs x y h

/-- On a constant non-empty list, `listMin` is that constant. -/
theorem listMin_const (x : ℚ) (xs : List ℚ) (p : ℚ) (hall : ∀ y ∈ x :: xs, y = p) :
    listMin (x :: xs) = p := by
  have hx : x = p := hall x (List.mem_cons_self x xs)
  refine le_antisymm ?_ ?_
  · calc listMin (x :: xs) ≤ x := listMin_le_of_mem (List.mem_cons_self x xs)
      _ = p := hx
  · show p ≤ xs.foldl min x
    exact le_foldl_min xs x p (le_of_eq hx.symm)
      (fun y hy => le_of_eq (hall y (List.mem_cons_of_mem x hy)).symm)

/-- On a constant non-empty list, `listMax` is that constant. -/
theorem listMax_const (x : ℚ) (xs : List ℚ) (p : ℚ) (hall : ∀ y ∈ x :: xs, y = p) :
    listMax (x :: xs) = p := by
  have hx : x = p := hall x (List.mem_cons_self x xs)
  refine le_antisymm ?_ ?_
  · show xs.foldl max x ≤ p
    exact foldl_max_le xs x p (le_of_eq hx)
      (fun y hy => le_of_eq (hall y (List.mem_cons_of_mem x hy)))
  · calc p = x := hx.symm
      _ ≤ listMax (x :: xs) := le_listMax_of_mem (List.mem_cons_self x xs)

/-- The raw price bounds of a non-empty series are ordered. -/
theorem rawMinPrice_le_rawMaxPrice (d : PricePoint) (rest : List PricePoint) :
    rawMinPrice (d :: rest) ≤ rawMaxPrice (d :: rest) := by
  have hmem : d.price ∈ (d :: rest).map (fun q => q.price) :=
    List.mem_map_of_mem _ (List.mem_cons_self d rest)
  exact le_trans (listMin_le_of_mem hmem) (le_listMax_of_mem hmem)

/-- C2 counterexample: a single-point series has `maxTime == minTime`, and
`setData` leaves that zero time range unguarded, so `timeToX` on the state
it just produced divides by zero (`normalized = (t - minTime) / 0`); in JS
this yields NaN rather than a flat renderable X coordinate.  Only the price
range receives the `|| 10` fallback. -/
theorem setData_single_point_time_divisor_zero :
    ((setData (mkChart 800 400) [⟨1000, 5⟩] []).1).maxTime -
      ((setData (mkChart 800 400) [⟨1000, 5⟩] []).1).minTime = 0 := by
  with_unfolding_all rfl

/-- C2 (amended): for every non-empty price sequence, `setData` guards the
price scale — the padded price range is strictly positive (a zero raw range
gets the fixed fallback padding 10), so `priceToY` never divides by zero,
and an all-equal (degenerate) price series renders as a flat line at
mid-chart height `padTop + chartHeight / 2`.  The time scale carries no such
guard: its divisor is nonzero only when two distinct timestamps exist, which
a single-point series lacks (see the counterexample). -/
theorem setData_degenerate_guard (c : ChartView) (d : PricePoint) (rest : List PricePoint)
    (trades : List Trade) :
    0 < (setData c (d :: rest) trades).1.maxPrice - (setData c (d :: rest) trades).1.minPrice ∧
    ((∀ q ∈ d :: rest, q.price = d.price) →
      ∀ q ∈ d :: rest,
        priceToY (setData c (d :: rest) trades).1 q.price
          = (setData c (d :: rest) trades).1.padTop
            + chartHeight (setData c (d :: rest) trades).1 / 2) ∧
    ((∃ q₁ ∈ d :: rest, ∃ q₂ ∈ d :: rest, q₁.timestamp ≠ q₂.timestamp) →
      (setData c (d :: rest) trades).1.maxTime - (setData c (d :: rest) trades).1.minTime ≠ 0) := by
  have hminP : (setData c (d :: rest) trades).1.minPrice
      = rawMinPrice (d :: rest) - pricePad (d :: rest) := rfl
  have hmaxP : (setData c (d :: rest) trades).1.maxPrice
      = rawMaxPrice (d :: rest) + pricePad (d :: rest) := rfl
  have hminT : (setData c (d :: rest) trades).1.minTime = rawMinTime (d :: rest) := rfl
  have hmaxT : (setData c (d :: rest) trades).1.maxTime = rawMaxTime (d :: rest) := rfl
  have hr : 0 ≤ rawMaxPrice (d :: rest) - rawMinPrice (d :: rest) :=
    sub_nonneg.mpr (rawMinPrice_le_rawMaxPrice d rest)
  refine ⟨?_, ?_, ?_⟩
  · rw [hminP, hmaxP]
    unfold pricePad jsOrNum
    by_cases h0 : (rawMaxPrice (d :: rest) - rawMinPrice (d :: rest)) * (5 / 100) = 0
    · rw [if_pos h0]
      have : rawMaxPrice (d :: rest) - rawMinPrice (d :: rest) = 0 := by
        rcases mul_eq_zero.mp h0 with h | h
        · exact h
        · norm_num at h
      linarith
    · rw [if_neg h0]
      have hrpos : 0 < rawMaxPrice (d :: rest) - rawMinPrice (d :: rest) := by
        rcases lt_or_eq_of_le hr with h | h
        · exact h
        · exact absurd (by rw [← h]; ring) h0
      nlinarith
  · intro hall q hq
    have hallmap : ∀ y ∈ (d :: rest).map (fun q => q.price), y = d.price := by
      intro y hy
      rcases List.mem_map.mp hy with ⟨q', hq', hy'⟩
      rw [← hy']
      exact hall q' hq'
    have hmin0 : rawMinPrice (d :: rest) = d.price := by
      unfold rawMinPrice
      rw [List.map_cons]
      exact listMin_const _ _ _ (by rw [← List.map_cons]; exact hallmap)
    have hmax0 : rawMaxPrice (d :: rest) = d.price := by
      unfold rawMaxPrice
      rw [List.map_cons]
      exact listMax_const _ _ _ (by rw [← List.map_cons]; exact hallmap)
    have hpad : pricePad (d :: rest) = 10 := by
      unfold pricePad jsOrNum
      rw [hmin0, hmax0]
      norm_num
    have hqp : q.price = d.price := hall q hq
    unfold priceToY
    rw [hminP, hmaxP, hmin0, hmax0, hpad, hqp]
    have hch : chartHeight (setData c (d :: rest) trades).1 = chartHeight c := rfl
    have hpt : (setData c (d :: rest) trades).1.padTop = c.padTop := rfl
    rw [hch, hpt]
    have : (d.price - (d.price - 10)) / (d.price + 10 - (d.price - 10)) = (1 : ℚ) / 2 := by
      norm_num
    rw [this]
    ring
  · rintro ⟨q₁, hq₁, q₂, hq₂, hne⟩
    rw [hminT, hmaxT]
    have hm₁ : q₁.timestamp ∈ (d :: rest).map (fun q => q.timestamp) :=
      List.mem_map_of_mem _ hq₁
    have hm₂ : q₂.timestamp ∈ (d :: rest).map (fun q => q.timestamp) :=
      List.mem_map_of_mem _ hq₂
    have hlo₁ : rawMinTime (d :: rest) ≤ q₁.timestamp := listMin_le_of_mem hm₁
    have hlo₂ : rawMinTime (d :: rest) ≤ q₂.timestamp := listMin_le_of_mem hm₂
    have hhi₁ : q₁.timestamp ≤ rawMaxTime (d :: rest) := le_listMax_of_mem hm₁
    have hhi₂ : q₂.timestamp ≤ rawMaxTime (d :: rest) := le_listMax_of_mem hm₂
    rcases lt_or_gt_of_ne hne with h | h
    · have : 0 < rawMaxTime (d :: rest) - rawMinTime (d :: rest) := by linarith
      exact ne_of_gt this
    · have : 0 < rawMaxTime (d :: rest) - rawMinTime (d :: rest) := by linarith
      exact ne_of_gt this

/-- C2 witness: a two-point all-equal-price series — positive padded price
range, flat line at mid-height, and a nonzero time divisor. -/
theorem setData_degenerate_guard_witness :
    (0 < (setData (mkChart 800 400) [⟨0, 50⟩, ⟨100, 50⟩] []).1.maxPrice
        - (setData (mkChart 800 400) [⟨0, 50⟩, ⟨100, 50⟩] []).1.minPrice) ∧
    (∀ q ∈ ([⟨0, 50⟩, ⟨100, 50⟩] : List PricePoint),
      priceToY (setData (mkChart 800 400) [⟨0, 50⟩, ⟨100, 50⟩] []).1 q.price
        = (setData (mkChart 800 400) [⟨0, 50⟩, ⟨100, 50⟩] []).1.padTop
          + chartHeight (setData (mkChart 800 400) [⟨0, 50⟩, ⟨100, 50⟩] []).1 / 2) ∧
    (setData (mkChart 800 400) [⟨0, 50⟩, ⟨100, 50⟩] []).1.maxTime
        - (setData (mkChart 800 400) [⟨0, 50⟩, ⟨100, 50⟩] []).1.minTime ≠ 0 :=
  ⟨(setData_degenerate_guard (mkChart 800 400) ⟨0, 50⟩ [⟨100, 50⟩] []).1,
   (setData_degenerate_guard (mkChart 800 400) ⟨0, 50⟩ [⟨100, 50⟩] []).2.1
     (by with_unfolding_all decide),
   (setData_degenerate_guard (mkChart 800 400) ⟨0, 50⟩ [⟨100, 50⟩] []).2.2
     ⟨⟨0, 50⟩, List.mem_cons_self _ _, ⟨100, 50⟩,
       List.mem_cons_of_mem _ (List.mem_cons_self _ _), by with_unfolding_all decide⟩⟩

/-- C10: when the last price of a non-empty series equals the baseline
(first) price, `drawCurrentPrice`'s comparison `price >= baselinePrice` is
true, so the tie renders the tag in the "up" color green (`colors.green`). -/
theorem current_price_tag_tie_green (c : ChartView) (d : PricePoint)
    (rest : List PricePoint) (trades : List Trade) (lp : PricePoint)
    (hlast : (d :: rest).getLast? = some lp) (heq : lp.price = d.price) :
    currentPriceIsUp (setData c (d :: rest) trades).1 = true ∧
    currentPriceTagColor (setData c (d :: rest) trades).1 = "#3fb950" := by
  have hpd : (setData c (d :: rest) trades).1.priceData = d :: rest := rfl
  have hbl : (setData c (d :: rest) trades).1.baselinePrice = d.price := rfl
  have hup : currentPriceIsUp (setData c (d :: rest) trades).1 = true := by
    unfold currentPriceIsUp
    rw [hpd, hlast, hbl]
    simp [heq]
  refine ⟨hup, ?_⟩
  unfold currentPriceTagColor
  rw [hup]
  simp

/-- C10 witness: a series ending exactly at its baseline gets the green tag. -/
theorem current_price_tag_tie_green_witness :
    currentPriceIsUp (setData (mkChart 800 400) [⟨0, 100⟩, ⟨50, 90⟩, ⟨100, 100⟩] []).1 = true ∧
    currentPriceTagColor (setData (mkChart 800 400) [⟨0, 100⟩, ⟨50, 90⟩, ⟨100, 100⟩] []).1
      = "#3fb950" :=
  current_price_tag_tie_green (mkChart 800 400) ⟨0, 100⟩ [⟨50, 90⟩, ⟨100, 100⟩] []
    ⟨100, 100⟩ rfl rfl

/-- The nearest-point loop invariant: folding from a current best `q` yields
the first element of `q :: l` attaining the minimum time distance — every
element strictly before the result is strictly farther, every element after
is no nearer. -/
theorem nearestScan_aux (ts : ℚ) :
    ∀ (l : List PricePoint) (q : PricePoint),
      ∃ r l₁ l₂,
        l.foldl (nearestStep ts) (some (q, tdist ts q)) = some (r, tdist ts r) ∧
        q :: l = l₁ ++ r :: l₂ ∧
        (∀ x ∈ l₁, tdist ts r < tdist ts x) ∧
        (∀ x ∈ l₂, tdist ts r ≤ tdist ts x) := by
  intro l
  induction l with
  | nil =>
    intro q
    exact ⟨q, [], [], rfl, rfl, by simp, by simp⟩
  | cons x l ih =>
    intro q
    by_cases hx : tdist ts x < tdist ts q
    · obtain ⟨r, l₁, l₂, hfold, hdec, h₁, h₂⟩ := ih x
      have hstep : (x :: l).foldl (nearestStep ts) (some (q, tdist ts q))
          = l.foldl (nearestStep ts) (some (x, tdist ts x)) := by
        rw [List.foldl_cons]
        simp [nearestStep, hx]
      refine ⟨r, q :: l₁, l₂, by rw [hstep]; exact hfold, ?_, ?_, h₂⟩
      · rw [List.cons_append, ← hdec]
      · intro y hy
        rcases List.mem_cons.mp hy with hy | hy
        · subst hy
          have hrx : tdist ts r ≤ tdist ts x := by
            cases l₁ with
            | nil =>
              have hxr : x = r := by
                have := hdec
                rw [List.nil_append] at this
                exact (List.cons_eq_cons.mp this).1
              rw [hxr]
            | cons a l₁' =>
              have hax : a = x := by
                have := hdec
                rw [List.cons_append] at this
                exact ((List.cons_eq_cons.mp this).1).symm
              exact le_of_lt (h₁ x (hax ▸ List.mem_cons_self a l₁'))
          exact lt_of_le_of_lt hrx hx
        · exact h₁ y hy
    · obtain ⟨r, l₁, l₂, hfold, hdec, h₁, h₂⟩ := ih q
      have hstep : (x :: l).foldl (nearestStep ts) (some (q, tdist ts q))
          = l.foldl (nearestStep ts) (some (q, tdist ts q)) := by
        rw [List.foldl_cons]
        simp [nearestStep, hx]
      cases l₁ with
      | nil =>
        have hqr : q = r ∧ l = l₂ := by
          rw [List.nil_append] at hdec
          exact List.cons_eq_cons.mp hdec
      
        refine ⟨r, [], x :: l₂, by rw [hstep]; exact hfold, ?_, by simp, ?_⟩
        · rw [List.nil_append, ← hqr.1, ← hqr.2]
        · intro y hy
          rcases List.mem_cons.mp hy with hy | hy
          · subst hy
            rw [← hqr.1]
            exact le_of_not_lt hx
          · exact h₂ y hy
      | cons a l₁' =>
        have haq : q = a ∧ l = l₁' ++ r :: l₂ := by
          rw [List.cons_append] at hdec
          exact List.cons_eq_cons.mp hdec
        have hrq : tdist ts r < tdist ts q := by
          have := h₁ a (List.mem_cons_self a l₁')
          rw [← haq.1] at this
          exact this
        refine ⟨r, q :: x :: l₁', l₂, by rw [hstep]; exact hfold, ?_, ?_, h₂⟩
        · rw [List.cons_append, List.cons_append, ← haq.2]
        · intro y hy
          rcases List.mem_cons.mp hy with hy | hy
          · subst hy; exact hrq
          · rcases List.mem_cons.mp hy with hy' | hy'
            · subst hy'
              exact lt_of_lt_of_le hrq (le_of_not_lt hx)
            · exact h₁ y (List.mem_cons_of_mem a hy')

/-- The nearest-point scan on a non-empty series returns the first argmin of
the time distance. -/
theorem nearestScan_cons (ts : ℚ) (d : PricePoint) (rest : List PricePoint) :
    ∃ r l₁ l₂,
      nearestScan ts (d :: rest) = some (r, tdist ts r) ∧
      d :: rest = l₁ ++ r :: l₂ ∧
      (∀ x ∈ l₁, tdist ts r < tdist ts x) ∧
      (∀ x ∈ l₂, tdist ts r ≤ tdist ts x) := by
  have h := nearestScan_aux ts rest d
  unfold nearestScan
  rw [List.foldl_cons]
  exact h

/-- `List.find?` returns the first satisfying element: the list splits at the
result and everything before it fails the predicate. -/
theorem find?_decomp {α : Type} (p : α → Bool) :
    ∀ (l : List α) (a : α), l.find? p = some a →
      ∃ l₁ l₂, l = l₁ ++ a :: l₂ ∧ p a = true ∧ ∀ x ∈ l₁, p x = false := by
  intro l
  induction l with
  | nil => intro a h; cases h
  | cons x xs ih =>
    intro a h
    by_cases hpx : p x
    · rw [List.find?_cons_of_pos _ hpx] at h
      injection h with h
      subst h
      exact ⟨[], xs, rfl, hpx, by simp⟩
    · rw [List.find?_cons_of_neg _ (by simpa using hpx)] at h
      obtain ⟨l₁, l₂, hdec, hpa, hall⟩ := ih a h
      refine ⟨x :: l₁, l₂, by rw [List.cons_append, hdec], hpa, ?_⟩
      intro y hy
      rcases List.mem_cons.mp hy with hy | hy
      · subst hy; simpa using hpx
      · exact hall y hy

/-- C7: a pointer outside the plot rectangle hides the tooltip; inside it,
on a non-empty series, the tooltip shows the price point minimizing the
absolute time distance to the inverted pointer X (ties to the earliest in
sequence order: everything before the match is strictly farther), and
independently attaches the first trade whose screen-space Euclidean distance
is within the 15px radius (`tradeHit` states `sqrt(dx²+dy²) < 15` on
squares), or no trade when none is within the radius. -/
theorem handleMouseMove_hit_test (c : ChartView) (x y : ℚ) :
    ((x < c.padLeft ∨ x > c.width - c.padRight ∨ y < c.padTop ∨ y > c.height - c.padBottom) →
      handleMouseMove c x y = TooltipResult.hidden) ∧
    (¬(x < c.padLeft ∨ x > c.width - c.padRight ∨ y < c.padTop ∨ y > c.height - c.padBottom) →
      c.priceData ≠ [] →
      ∃ p tr l₁ l₂,
        handleMouseMove c x y = TooltipResult.shown p tr ∧
        c.priceData = l₁ ++ p :: l₂ ∧
        (∀ q ∈ c.priceData, tdist (xToTime c x) p ≤ tdist (xToTime c x) q) ∧
        (∀ q ∈ l₁, tdist (xToTime c x) p < tdist (xToTime c x) q) ∧
        (∀ t, tr = some t →
          ∃ m₁ m₂, c.trades = m₁ ++ t :: m₂ ∧ tradeHit c x y t = true ∧
            ∀ u ∈ m₁, tradeHit c x y u = false) ∧
        (tr = none → ∀ u ∈ c.trades, tradeHit c x y u = false)) := by
  constructor
  · intro h
    unfold handleMouseMove
    rw [if_pos h]
  · intro h hne
    cases hpd : c.priceData with
    | nil => exact absurd hpd hne
    | cons d rest =>
      obtain ⟨r, l₁, l₂, hscan, hdec, h₁, h₂⟩ := nearestScan_cons (xToTime c x) d rest
      have hrun : handleMouseMove c x y
          = TooltipResult.shown r (c.trades.find? (tradeHit c x y)) := by
        unfold handleMouseMove
        rw [if_neg h, hpd, hscan]
      refine ⟨r, c.trades.find? (tradeHit c x y), l₁, l₂, hrun, hdec, ?_, h₁, ?_, ?_⟩
      · intro q hq
        rw [hdec] at hq
        rcases List.mem_append.mp hq with hq | hq
        · exact le_of_lt (h₁ q hq)
        · rcases List.mem_cons.mp hq with hq | hq
          · subst hq; exact le_rfl
          · exact h₂ q hq
      · intro t ht
        exact find?_decomp (tradeHit c x y) c.trades t ht
      · intro ht u hu
        simpa using List.find?_eq_none.mp ht u hu

/-- C7 witness: on `hitChart`, a far-out pointer hides the tooltip; the
pointer at the exact pixel (120, 190) of the plotted point (100, 170) picks
that point (zero time distance) with no trade attached; a pointer 20px from
the trade marker at pixel (370, 260) shows the nearest point but matches no
trade (20 ≥ the 15px radius). -/
theorem handleMouseMove_hit_test_witness :
    handleMouseMove hitChart 0 0 = TooltipResult.hidden ∧
    (∃ p tr l₁ l₂,
      handleMouseMove hitChart 120 190 = TooltipResult.shown p tr ∧
      hitChart.priceData = l₁ ++ p :: l₂ ∧
      (∀ q ∈ hitChart.priceData,
        tdist (xToTime hitChart 120) p ≤ tdist (xToTime hitChart 120) q) ∧
      (∀ q ∈ l₁, tdist (xToTime hitChart 120) p < tdist (xToTime hitChart 120) q) ∧
      (∀ t, tr = some t →
        ∃ m₁ m₂, hitChart.trades = m₁ ++ t :: m₂ ∧ tradeHit hitChart 120 190 t = true ∧
          ∀ u ∈ m₁, tradeHit hitChart 120 190 u = false) ∧
      (tr = none → ∀ u ∈ hitChart.trades, tradeHit hitChart 120 190 u = false)) ∧
    handleMouseMove hitChart 120 190 = TooltipResult.shown ⟨100, 170⟩ none ∧
    handleMouseMove hitChart 390 260 = TooltipResult.shown ⟨350, 100⟩ none :=
  ⟨(handleMouseMove_hit_test hitChart 0 0).1 (by with_unfolding_all decide),
   (handleMouseMove_hit_test hitChart 120 190).2 (by with_unfolding_all decide)
     (by with_unfolding_all decide),
   by with_unfolding_all rfl,
   by with_unfolding_all rfl⟩

/-- `updateUI` touches only `isLive`. -/
theorem updateUI_displayed (s : Controller) : (updateUI s).displayed = s.displayed := rfl

/-- `updateUI` preserves the current index. -/
theorem updateUI_currentDayIndex (s : Controller) :
    (updateUI s).currentDayIndex = s.currentDayIndex := rfl

/-- `updateUI` preserves the day list. -/
theorem updateUI_availableDays (s : Controller) :
    (updateUI s).availableDays = s.availableDays := rfl

/-- `updateUI` computes `isLive` from index and day-list length. -/
theorem updateUI_isLive (s : Controller) :
    (updateUI s).isLive = decide (s.currentDayIndex = (s.availableDays.length : ℤ) - 1) := rfl

/-- After `updateUI`, the §3 invariant holds by construction. -/
theorem updateUI_liveInv (s : Controller) : liveInv (updateUI s) := by
  unfold liveInv
  rw [updateUI_isLive, updateUI_currentDayIndex, updateUI_availableDays]
  exact decide_eq_true_iff

/-- `handleData` ends in `updateUI`, so it establishes the invariant. -/
theorem handleData_liveInv (s : Controller) (d : SnapshotData) : liveInv (handleData s d) :=
  updateUI_liveInv _

/-- The cache write stage touches only `dayCache`. -/
theorem handleDataCache_currentDayIndex (s : Controller) (d : SnapshotData) :
    (handleDataCache s d).currentDayIndex = s.currentDayIndex := by
  unfold handleDataCache
  cases d.prices <;> rfl

/-- The cache write stage preserves the day list. -/
theorem handleDataCache_availableDays (s : Controller) (d : SnapshotData) :
    (handleDataCache s d).availableDays = s.availableDays := by
  unfold handleDataCache
  cases d.prices <;> rfl

/-- The cache write stage preserves the displayed payload. -/
theorem handleDataCache_displayed (s : Controller) (d : SnapshotData) :
    (handleDataCache s d).displayed = s.displayed := by
  unfold handleDataCache
  cases d.prices <;> rfl

/-- The day-list stage never writes `displayed`. -/
theorem handleDataDays_displayed (s : Controller) (d : SnapshotData) :
    (handleDataDays s d).displayed = s.displayed := by
  unfold handleDataDays
  split
  · split
    · rfl
    · split <;> rfl
  · split <;> rfl

/-- The live-push stage preserves the current index. -/
theorem handleDataLive_currentDayIndex (s : Controller) (d : SnapshotData) :
    (handleDataLive s d).currentDayIndex = s.currentDayIndex := by
  unfold handleDataLive
  split <;> rfl

/-- The live-push stage preserves the day list. -/
theorem handleDataLive_availableDays (s : Controller) (d : SnapshotData) :
    (handleDataLive s d).availableDays = s.availableDays := by
  unfold handleDataLive
  split <;> rfl

/-- `handleData`'s final index is the one the day-list stage computed. -/
theorem handleData_currentDayIndex (s : Controller) (d : SnapshotData) :
    (handleData s d).currentDayIndex
      = (handleDataDays { s with loading := false } d).currentDayIndex := by
  unfold handleData
  rw [updateUI_currentDayIndex, handleDataLive_currentDayIndex, handleDataCache_currentDayIndex]

/-- `handleData`'s final day list is the one the day-list stage computed. -/
theorem handleData_availableDays (s : Controller) (d : SnapshotData) :
    (handleData s d).availableDays
      = (handleDataDays { s with loading := false } d).availableDays := by
  unfold handleData
  rw [updateUI_availableDays, handleDataLive_availableDays, handleDataCache_availableDays]

/-- `handleData` pushes the snapshot's series to the chart exactly when the
(updated) index points at the (updated) last day; otherwise the displayed
payload is untouched. -/
theorem handleData_displayed (s : Controller) (d : SnapshotData) :
    (handleData s d).displayed =
      if (handleDataDays { s with loading := false } d).currentDayIndex
          = ((handleDataDays { s with loading := false } d).availableDays.length : ℤ) - 1
      then some (d.prices.getD [], d.trades.getD [])
      else s.displayed := by
  unfold handleData
  rw [updateUI_displayed]
  unfold handleDataLive
  rw [handleDataCache_currentDayIndex, handleDataCache_availableDays]
  split
  · rfl
  · rw [handleDataCache_displayed, handleDataDays_displayed]

/-- `fetchData` preserves the invariant: success re-establishes it through
`handleData`/`updateUI`, failure touches only the connection status. -/
theorem fetchData_liveInv (s : Controller) (o : FetchOutcome) (h : liveInv s) :
    liveInv (fetchData s o).1 := by
  cases o with
  | ok d => exact handleData_liveInv s d
  | failed => exact h

/-- `fetchDayData` touches only cache/display/loading, preserving the invariant. -/
theorem fetchDayData_liveInv (s : Controller) (day : String) (o : DayFetchOutcome)
    (h : liveInv s) : liveInv (fetchDayData s day o).1 := by
  cases o <;> exact h

/-- `navigateTo` preserves the invariant: a rejected index is a no-op, and
both valid paths end in `updateUI`. -/
theorem navigateTo_liveInv (s : Controller) (i : ℤ) (o : DayFetchOutcome) (h : liveInv s) :
    liveInv (navigateTo s i o).1 := by
  unfold navigateTo
  by_cases hc : i < 0 ∨ (s.availableDays.length : ℤ) ≤ i
  · rw [if_pos hc]
    exact h
  · rw [if_neg hc]
    dsimp only
    split <;> exact updateUI_liveInv _

/-- After a valid `navigateTo`, `isLive` is exactly the recomputed test
`index == availableDays.length - 1` (via the trailing `updateUI`). -/
theorem navigateTo_isLive (s : Controller) (i : ℤ) (o : DayFetchOutcome)
    (h0 : 0 ≤ i) (hlt : i < (s.availableDays.length : ℤ)) :
    (navigateTo s i o).1.isLive = decide (i = (s.availableDays.length : ℤ) - 1) := by
  unfold navigateTo
  rw [if_neg (by simp only [not_or, not_lt, not_le]; exact ⟨h0, hlt⟩)]
  dsimp only
  split
  · rfl
  · cases o <;> rfl

/-- C4: the §3 invariant `isLive == (currentDayIndex == availableDays.length
- 1)` holds initially and is preserved by every controller operation;
`navigateTo` to the last index turns `isLive` on and to any lower valid
index turns it off; a poll tick reads the flag at invocation time — when it
is off the tick is a complete no-op (chart included), when it is on the tick
performs `fetchData`, whose success pushes the snapshot's series to the
chart exactly when the updated index points at the updated live day. -/
theorem carousel_isLive_invariant :
    liveInv initController ∧
    (∀ (s : Controller) (op : COp), liveInv s → liveInv (applyOp s op)) ∧
    (∀ (s : Controller) (o : DayFetchOutcome), 0 < s.availableDays.length →
      (navigateTo s ((s.availableDays.length : ℤ) - 1) o).1.isLive = true) ∧
    (∀ (s : Controller) (i : ℤ) (o : DayFetchOutcome),
      0 ≤ i → i < (s.availableDays.length : ℤ) - 1 →
      (navigateTo s i o).1.isLive = false) ∧
    (∀ (s : Controller) (o : FetchOutcome), s.isLive = false → pollTick s o = (s, none)) ∧
    (∀ (s : Controller) (o : FetchOutcome), s.isLive = true → pollTick s o = fetchData s o) ∧
    (∀ (s : Controller) (d : SnapshotData),
      (handleData s d).displayed =
        if (handleData s d).currentDayIndex = ((handleData s d).availableDays.length : ℤ) - 1
        then some (d.prices.getD [], d.trades.getD []) else s.displayed) := by
  refine ⟨?_, ?_, ?_, ?_, ?_, ?_, ?_⟩
  · unfold liveInv initController
    simp
  · intro s op h
    cases op with
    | handle d => exact handleData_liveInv s d
    | fetch o => exact fetchData_liveInv s o h
    | fetchDay day o => exact fetchDayData_liveInv s day o h
    | nav i o => exact navigateTo_liveInv s i o h
    | tick o =>
      show liveInv (pollTick s o).1
      unfold pollTick
      split
      · exact fetchData_liveInv s o h
      · exact h
    | startOp o => exact fetchData_liveInv { s with loading := true } o h
  · intro s o hlen
    rw [navigateTo_isLive s _ o (by omega) (by omega)]
    simp
  · intro s i o h0 hlt
    rw [navigateTo_isLive s i o h0 (by omega)]
    simp only [decide_eq_false_iff_not]
    omega
  · intro s o h
    unfold pollTick
    rw [h]
    simp
  · intro s o h
    unfold pollTick
    rw [h]
    simp
  · intro s d
    rw [handleData_displayed, handleData_currentDayIndex, handleData_availableDays]

/-- C4 witness: the invariant after a concrete `handleData`; `navigateTo` to
the last/lower index flipping `isLive`; a historical tick as a complete
no-op and a live tick performing the fetch. -/
theorem carousel_isLive_invariant_witness :
    liveInv (applyOp liveController (COp.handle demoSnapshot)) ∧
    (navigateTo histController ((histController.availableDays.length : ℤ) - 1)
        DayFetchOutcome.httpError).1.isLive = true ∧
    (navigateTo liveController 0 DayFetchOutcome.httpError).1.isLive = false ∧
    pollTick histController (FetchOutcome.ok demoSnapshot) = (histController, none) ∧
    pollTick liveController (FetchOutcome.ok demoSnapshot)
      = fetchData liveController (FetchOutcome.ok demoSnapshot) :=
  ⟨carousel_isLive_invariant.2.1 liveController (COp.handle demoSnapshot)
     (by unfold liveInv; with_unfolding_all decide),
   carousel_isLive_invariant.2.2.1 histController DayFetchOutcome.httpError
     (by with_unfolding_all decide),
   carousel_isLive_invariant.2.2.2.1 liveController 0 DayFetchOutcome.httpError
     (by with_unfolding_all decide) (by with_unfolding_all decide),
   carousel_isLive_invariant.2.2.2.2.1 histController (FetchOutcome.ok demoSnapshot)
     (by with_unfolding_all decide),
   carousel_isLive_invariant.2.2.2.2.2.1 liveController (FetchOutcome.ok demoSnapshot)
     (by with_unfolding_all decide)⟩

/-- C5: `navigateTo` with an out-of-range index returns before touching any
state and issues no fetch; a valid index whose day is in the cache issues no
network call and displays the cached series; a valid uncached day issues
exactly one fetch. -/
theorem navigateTo_cache_spec (s : Controller) (i : ℤ) (o : DayFetchOutcome) :
    ((i < 0 ∨ (s.availableDays.length : ℤ) ≤ i) → navigateTo s i o = (s, 0)) ∧
    (0 ≤ i → i < (s.availableDays.length : ℤ) →
      (∀ dd, s.dayCache.lookup (s.availableDays.getD i.toNat "") = some dd →
        (navigateTo s i o).2 = 0 ∧
        (navigateTo s i o).1.displayed = some (dd.prices, dd.trades)) ∧
      (s.dayCache.lookup (s.availableDays.getD i.toNat "") = none →
        (navigateTo s i o).2 = 1)) := by
  constructor
  · intro h
    unfold navigateTo
    rw [if_pos h]
  · intro h0 hlt
    have hc : ¬(i < 0 ∨ (s.availableDays.length : ℤ) ≤ i) := by
      simp only [not_or, not_lt, not_le]
      exact ⟨h0, hlt⟩
    constructor
    · intro dd hdd
      unfold navigateTo
      rw [if_neg hc]
      dsimp only
      rw [hdd]
      exact ⟨rfl, rfl⟩
    · intro hnone
      unfold navigateTo
      rw [if_neg hc]
      dsimp only
      rw [hnone]

/-- C5 witness: on a controller with two days and the first day cached —
index 5 is a no-op, index 0 is a cache hit (no fetch, cached series
displayed), index 1 is a miss (exactly one fetch). -/
theorem navigateTo_cache_spec_witness :
    navigateTo histController 5 DayFetchOutcome.httpError = (histController, 0) ∧
    ((navigateTo histController 0 DayFetchOutcome.httpError).2 = 0 ∧
      (navigateTo histController 0 DayFetchOutcome.httpError).1.displayed
        = some ([⟨5, 42⟩], [])) ∧
    (navigateTo histController 1 DayFetchOutcome.httpError).2 = 1 := by
  refine ⟨(navigateTo_cache_spec histController 5 DayFetchOutcome.httpError).1
      (by with_unfolding_all decide), ?_, ?_⟩
  · exact ((navigateTo_cache_spec histController 0 DayFetchOutcome.httpError).2
      (by with_unfolding_all decide) (by with_unfolding_all decide)).1
      ⟨[⟨5, 42⟩], []⟩ (by with_unfolding_all decide)
  · exact ((navigateTo_cache_spec histController 1 DayFetchOutcome.httpError).2
      (by with_unfolding_all decide) (by with_unfolding_all decide)).2
      (by with_unfolding_all decide)

/-- C6: every fetch resolution is a defined state (the embedding is total —
the source wraps both bodies in try/catch, so nothing propagates).  A failed
live fetch sets the Waiting status, leaves the current index, day list,
displayed chart and the polling flag unchanged, and schedules exactly one
retry after the fixed `retryIntervalMs` backoff.  A failed (HTTP or network)
or empty historical-day fetch displays the empty chart and schedules no
retry. -/
theorem fetch_failure_resolution (s : Controller) (day : String) :
    (fetchData s FetchOutcome.failed).1.connection = ConnStatus.waiting ∧
    (fetchData s FetchOutcome.failed).1.currentDayIndex = s.currentDayIndex ∧
    (fetchData s FetchOutcome.failed).1.availableDays = s.availableDays ∧
    (fetchData s FetchOutcome.failed).1.displayed = s.displayed ∧
    (fetchData s FetchOutcome.failed).1.polling = s.polling ∧
    (fetchData s FetchOutcome.failed).2 = some retryIntervalMs ∧
    (fetchDayData s day DayFetchOutcome.httpError).1.displayed = some ([], []) ∧
    (fetchDayData s day DayFetchOutcome.httpError).2 = none ∧
    (fetchDayData s day DayFetchOutcome.networkError).1.displayed = some ([], []) ∧
    (fetchDayData s day DayFetchOutcome.networkError).2 = none ∧
    (fetchDayData s day (DayFetchOutcome.ok none none)).1.displayed = some ([], []) ∧
    (fetchDayData s day (DayFetchOutcome.ok none none)).2 = none :=
  ⟨rfl, rfl, rfl, rfl, rfl, rfl, rfl, rfl, rfl, rfl, rfl, rfl⟩

/-- C8 counterexample: the wire shapes are not transparently interchangeable.
(1) A price point with `t: 0` normalizes its timestamp to undefined (JS `||`
treats 0 as falsy), while the full-name shape `timestamp: 0` keeps 0 — the
very first point of the spec's own example `{t:0, price:100}` hits this.
(2) A trade carrying its price in the abbreviated `p` field loses it
entirely, because `updateChart` reads trade prices from `price` only; the
full-name shape with the same values keeps 50.  Either way the data reaching
the chart differs, so the chart state differs. -/
theorem wire_shape_not_transparent :
    normalizePricePoint { t := some 0, timestamp := none, p := none, price := some 100 }
      ≠ normalizePricePoint { t := none, timestamp := some 0, p := none, price := some 100 } ∧
    normalizeTrade { t := some 100, timestamp := none, p := some 50, price := none,
                     side := TradeSide.buy, usdValue := none }
      ≠ normalizeTrade { t := none, timestamp := some 100, p := none, price := some 50,
                         side := TradeSide.buy, usdValue := none } := by
  constructor <;> with_unfolding_all decide

/-- C8 (amended): the consuming layer accepts both wire shapes for price
points whenever the abbreviated fields hold non-zero values (zero values are
falsy and fall through JS `||`), and for trades it accepts the abbreviated
`t` (non-zero) but reads the price from the full `price` field only; the
spec's end-to-end example `[{t:0,price:100},{t:100,price:110}]` still
produces baseline 100 and an "up"/green current-price tag, because the
baseline and the tag comparison depend only on the (full-name, non-zero)
price fields. -/
theorem wire_shape_compat_amended :
    (∀ tv pv : ℚ, tv ≠ 0 → pv ≠ 0 →
      normalizePricePoint { t := some tv, timestamp := none, p := some pv, price := none }
        = normalizePricePoint { t := none, timestamp := some tv, p := none, price := some pv }) ∧
    (∀ (tv pr : ℚ) (sd : TradeSide) (uv : Option ℚ), tv ≠ 0 →
      normalizeTrade { t := some tv, timestamp := none, p := none, price := some pr,
                       side := sd, usdValue := uv }
        = normalizeTrade { t := none, timestamp := some tv, p := none, price := some pr,
                           side := sd, usdValue := uv }) ∧
    wireBaseline (specExamplePoints.map normalizePricePoint) = some 100 ∧
    wireIsUp (specExamplePoints.map normalizePricePoint) = true ∧
    wireTagColor (specExamplePoints.map normalizePricePoint) = "#3fb950" := by
  refine ⟨?_, ?_, ?_, ?_, ?_⟩
  · intro tv pv htv hpv
    unfold normalizePricePoint jsOr
    simp [htv, hpv]
  · intro tv pr sd uv htv
    unfold normalizeTrade jsOr
    simp [htv]
  · with_unfolding_all rfl
  · with_unfolding_all rfl
  · with_unfolding_all rfl

/-- C8 witness: the shape equivalence applied at non-zero values 7 and 9. -/
theorem wire_shape_compat_amended_witness :
    normalizePricePoint { t := some 7, timestamp := none, p := some 9, price := none }
      = normalizePricePoint { t := none, timestamp := some 7, p := none, price := some 9 } ∧
    normalizeTrade { t := some 7, timestamp := none, p := none, price := some 9,
                     side := TradeSide.sell, usdValue := none }
      = normalizeTrade { t := none, timestamp := some 7, p := none, price := some 9,
                         side := TradeSide.sell, usdValue := none } :=
  ⟨wire_shape_compat_amended.1 7 9 (by norm_num) (by norm_num),
   wire_shape_compat_amended.2.1 7 9 TradeSide.sell none (by norm_num)⟩
